import Mathlib

/-
Verification of the runtime-metadata decode/lookup core of chainx-cli
(src/app/meta.rs).

The Rust code under verification is:

  fn fetch_metadata(url) -> Result<RuntimeMetadataPrefixed>
    ... let bytes = hex::decode(hex_data.trim_start_matches("0x"))?;
        let decoded = scale::Decode::decode(&mut &bytes[..])?; ...

  fn display_metadata(metadata: RuntimeMetadataPrefixed, pallets: Option<String>)
    -- dispatches on the metadata version (V12 / V13 / V14), unwraps the
    -- DecodeDifferent wrapper around the module list, and looks a module up
    -- by name with `find`.

The metadata schema and its SCALE decoding come from the `frame-metadata`
and `parity-scale-codec` crates that meta.rs calls into; the relevant parts
of those libraries are embedded here as well (shapes, decode rules, and the
`PartialEq` of `DecodeDifferent`, which compares SCALE encodings).

Strings are represented by their UTF-8 byte sequences (`Str := List Nat`):
equality of UTF-8 byte sequences coincides with equality of the strings
they encode, so exact / case-sensitive name matching is preserved.
-/

/-- Decidable equality for `Except`, so that concrete decode / lookup results
can be settled by `decide`. -/
instance {ε α : Type} [DecidableEq ε] [DecidableEq α] : DecidableEq (Except ε α) := fun x y =>
  match x, y with
  | .ok a, .ok b =>
    if h : a = b then .isTrue (h ▸ rfl) else .isFalse (fun hh => h (Except.ok.inj hh))
  | .ok _, .error _ => .isFalse (fun hh => Except.noConfusion hh)
  | .error _, .ok _ => .isFalse (fun hh => Except.noConfusion hh)
  | .error e, .error f =>
    if h : e = f then .isTrue (h ▸ rfl) else .isFalse (fun hh => h (Except.error.inj hh))

/-! ## Bytes and SCALE primitives -/

/-- A byte; encoders only produce values `< 256`. -/
abbrev Byte := Nat

/-- A Rust `String` / `&str`, as its UTF-8 byte sequence. -/
abbrev Str := List Nat

/-- Little-endian base-256 digits of a natural number (no trailing zero). -/
def natLEBytes : Nat → List Nat
  | 0 => []
  | n + 1 => ((n + 1) % 256) :: natLEBytes ((n + 1) / 256)
decreasing_by exact Nat.div_lt_self (Nat.succ_pos n) (by omega)

/-- Read a little-endian byte list back as a natural number. -/
def fromLE (bs : List Nat) : Nat := bs.foldr (fun b acc => b + 256 * acc) 0

/-- SCALE compact (`Compact<u32>`) encoding of a natural number: two low bits
of the first byte select single-byte / two-byte / four-byte / big mode
(`parity-scale-codec`, `impl Encode for Compact<u32>`). -/
def compactEncode (n : Nat) : List Nat :=
  if n < 64 then [n * 4]
  else if n < 16384 then [(n * 4 + 1) % 256, (n * 4 + 1) / 256]
  else if n < 2 ^ 30 then
    [(n * 4 + 2) % 256, (n * 4 + 2) / 256 % 256,
     (n * 4 + 2) / 2 ^ 16 % 256, (n * 4 + 2) / 2 ^ 24 % 256]
  else (((natLEBytes n).length - 4) * 4 + 3) :: natLEBytes n

/-- SCALE encoding of a string: compact length followed by the UTF-8 bytes
(`impl Encode for &str` / `String`). -/
def scaleEncodeStr (s : Str) : List Nat := compactEncode s.length ++ s

/-- UTF-8 validity (RFC 3629 ranges), as checked by Rust `String::from_utf8`
during SCALE decoding of a `String`. -/
def utf8Valid : List Nat → Bool
  | [] => true
  | b :: rest =>
    if b < 0x80 then utf8Valid rest
    else if 0xC2 ≤ b ∧ b ≤ 0xDF then
      match rest with
      | b1 :: rest1 => (0x80 ≤ b1 && b1 ≤ 0xBF) && utf8Valid rest1
      | [] => false
    else if b = 0xE0 then
      match rest with
      | b1 :: b2 :: rest2 =>
        (0xA0 ≤ b1 && b1 ≤ 0xBF) && (0x80 ≤ b2 && b2 ≤ 0xBF) && utf8Valid rest2
      | _ => false
    else if (0xE1 ≤ b ∧ b ≤ 0xEC) ∨ (0xEE ≤ b ∧ b ≤ 0xEF) then
      match rest with
      | b1 :: b2 :: rest2 =>
        (0x80 ≤ b1 && b1 ≤ 0xBF) && (0x80 ≤ b2 && b2 ≤ 0xBF) && utf8Valid rest2
      | _ => false
    else if b = 0xED then
      match rest with
      | b1 :: b2 :: rest2 =>
        (0x80 ≤ b1 && b1 ≤ 0x9F) && (0x80 ≤ b2 && b2 ≤ 0xBF) && utf8Valid rest2
      | _ => false
    else if b = 0xF0 then
      match rest with
      | b1 :: b2 :: b3 :: rest3 =>
        (0x90 ≤ b1 && b1 ≤ 0xBF) && (0x80 ≤ b2 && b2 ≤ 0xBF) &&
          (0x80 ≤ b3 && b3 ≤ 0xBF) && utf8Valid rest3
      | _ => false
    else if 0xF1 ≤ b ∧ b ≤ 0xF3 then
      match rest with
      | b1 :: b2 :: b3 :: rest3 =>
        (0x80 ≤ b1 && b1 ≤ 0xBF) && (0x80 ≤ b2 && b2 ≤ 0xBF) &&
          (0x80 ≤ b3 && b3 ≤ 0xBF) && utf8Valid rest3
      | _ => false
    else if b = 0xF4 then
      match rest with
      | b1 :: b2 :: b3 :: rest3 =>
        (0x80 ≤ b1 && b1 ≤ 0x8F) && (0x80 ≤ b2 && b2 ≤ 0xBF) &&
          (0x80 ≤ b3 && b3 ≤ 0xBF) && utf8Valid rest3
      | _ => false
    else false

/-! ## The DecodeDifferent wrapper (frame_metadata::decode_different) -/

/-- Rust `DecodeDifferent<B, O>`: either a producer-side (`Encode`) value or a
consumer-side decoded (`Decoded`) value.  In every use in this development the
two sides carry the same logical payload type, so one type parameter suffices. -/
inductive DecodeDifferent (α : Type) where
  | Encode : α → DecodeDifferent α
  | Decoded : α → DecodeDifferent α
deriving DecidableEq

/-- Rust `DecodeDifferentArray<B, O> = DecodeDifferent<&'static [B], Vec<O>>`. -/
abbrev DecodeDifferentArray (α : Type) := DecodeDifferent (List α)

/-- The payload of either side of the wrapper ("resolving the name from its
Decoded/StillEncoded wrapper"). -/
def ddPayload : DecodeDifferent Str → Str
  | .Encode b => b
  | .Decoded o => o

/-- The `Encode` impl of `DecodeDifferent` delegates to the payload on either
side, so both sides SCALE-encode to the payload's encoding. -/
def ddEncodeStr : DecodeDifferent Str → List Nat
  | .Encode b => scaleEncodeStr b
  | .Decoded o => scaleEncodeStr o

/-- The `PartialEq` impl of `DecodeDifferent` in frame_metadata compares the
SCALE encodings of the two values: `self.encode() == other.encode()`. -/
def ddEq (a b : DecodeDifferent Str) : Bool := ddEncodeStr a == ddEncodeStr b

/-! ## Metadata schema (frame_metadata), at the fidelity the claims need

The v12/v13 module structs and the v14 pallet struct are embedded with their
name / calls / index fields; sub-structures not bearing on any verified
property (storage entries, events, constants, errors, and the v14 type
registry, extrinsic and runtime-type fields) are elided.  `v12::ModuleMetadata`
and `v13::ModuleMetadata` are distinct Rust types whose shapes coincide at
this fidelity level (they differ only in elided storage-entry details), so a
single Lean structure stands for both. -/

/-- Rust `FunctionArgumentMetadata { name, ty }`. -/
structure FunctionArgumentMetadata where
  name : DecodeDifferent Str
  ty : DecodeDifferent Str
deriving DecidableEq

/-- Rust `FunctionMetadata { name, arguments, documentation }`. -/
structure FunctionMetadata where
  name : DecodeDifferent Str
  arguments : DecodeDifferentArray FunctionArgumentMetadata
  documentation : DecodeDifferentArray Str
deriving DecidableEq

/-- Rust `ModuleMetadata { name, .., calls, .., index }` (v12 and v13). -/
structure ModuleMetadata where
  name : DecodeDifferent Str
  calls : Option (DecodeDifferentArray FunctionMetadata)
  index : Byte
deriving DecidableEq

/-- Rust `ExtrinsicMetadata { version, signed_extensions }` (v12 and v13). -/
structure ExtrinsicMetadata where
  version : Byte
  signed_extensions : List (DecodeDifferent Str)
deriving DecidableEq

/-- Rust `RuntimeMetadataV12 { modules, extrinsic }`. -/
structure RuntimeMetadataV12 where
  modules : DecodeDifferentArray ModuleMetadata
  extrinsic : ExtrinsicMetadata
deriving DecidableEq

/-- Rust `RuntimeMetadataV13 { modules, extrinsic }`. -/
structure RuntimeMetadataV13 where
  modules : DecodeDifferentArray ModuleMetadata
  extrinsic : ExtrinsicMetadata
deriving DecidableEq

/-- Rust `PalletCallMetadata { ty }` (v14); the type id is a compact-encoded
symbol into the (elided) type registry. -/
structure PalletCallMetadata where
  ty : Nat
deriving DecidableEq

/-- Rust `PalletMetadata { name, .., calls, .., index }` (v14): the name is a
plain `String`, with no `DecodeDifferent` wrapper anywhere. -/
structure PalletMetadata where
  name : Str
  calls : Option PalletCallMetadata
  index : Byte
deriving DecidableEq

/-- Rust `RuntimeMetadataV14 { .., pallets, .. }`. -/
structure RuntimeMetadataV14 where
  pallets : List PalletMetadata
deriving DecidableEq

/-- Rust `pub enum RuntimeMetadataDeprecated {}` — an empty enum: no value of
this type exists, so none of the deprecated variants V0–V11 of
`RuntimeMetadata` can be populated. -/
inductive RuntimeMetadataDeprecated : Type where

instance : DecidableEq RuntimeMetadataDeprecated := fun a => nomatch a

/-- Rust `enum RuntimeMetadata`: variants V0–V11 carry the uninhabited
deprecated marker; V12–V14 carry their schema structs. -/
inductive RuntimeMetadata where
  | V0 : RuntimeMetadataDeprecated → RuntimeMetadata
  | V1 : RuntimeMetadataDeprecated → RuntimeMetadata
  | V2 : RuntimeMetadataDeprecated → RuntimeMetadata
  | V3 : RuntimeMetadataDeprecated → RuntimeMetadata
  | V4 : RuntimeMetadataDeprecated → RuntimeMetadata
  | V5 : RuntimeMetadataDeprecated → RuntimeMetadata
  | V6 : RuntimeMetadataDeprecated → RuntimeMetadata
  | V7 : RuntimeMetadataDeprecated → RuntimeMetadata
  | V8 : RuntimeMetadataDeprecated → RuntimeMetadata
  | V9 : RuntimeMetadataDeprecated → RuntimeMetadata
  | V10 : RuntimeMetadataDeprecated → RuntimeMetadata
  | V11 : RuntimeMetadataDeprecated → RuntimeMetadata
  | V12 : RuntimeMetadataV12 → RuntimeMetadata
  | V13 : RuntimeMetadataV13 → RuntimeMetadata
  | V14 : RuntimeMetadataV14 → RuntimeMetadata
deriving DecidableEq

/-- Rust `RuntimeMetadataPrefixed(pub u32, pub RuntimeMetadata)`: the `.0`
magic number and the `.1` versioned metadata. -/
structure RuntimeMetadataPrefixed where
  magic : Nat
  meta : RuntimeMetadata
deriving DecidableEq

/-- True exactly on the versions the code's `match` handles explicitly. -/
def supportedVersion : RuntimeMetadata → Bool
  | .V12 _ => true
  | .V13 _ => true
  | .V14 _ => true
  | _ => false

/-! ## The SCALE decoder

`scale::Decode::decode(&mut &bytes[..])` in `fetch_metadata`.  A decoder maps
an input byte list to an error or a value plus the unread remainder of the
input.  Errors: `truncated` for input exhaustion ("Not enough data ..." in
parity-scale-codec), `badFormat` for a structural mismatch (invalid UTF-8,
out-of-range compact, unexpected `Option` byte), and `unsupportedVersion` for
a version tag the schema does not decode (tags 0–11 hit
`RuntimeMetadataDeprecated::decode`, which always errors, and tags ≥ 15 hit
the derived "variant doesn't exist" error; both are version-unsupported
outcomes and the spec treats them as one). -/

inductive DecodeError where
  | truncated
  | badFormat
  | unsupportedVersion
deriving DecidableEq

/-- A decoder: input bytes to error or (value, rest-of-input). -/
abbrev Decoder (α : Type) := List Nat → Except DecodeError (α × List Nat)

/-- Decoder that consumes nothing and returns a value. -/
def dPure {α : Type} (a : α) : Decoder α := fun i => .ok (a, i)

/-- Decoder failure. -/
def dFail {α : Type} (e : DecodeError) : Decoder α := fun _ => .error e

/-- Sequential composition of decoders. -/
def dBind {α β : Type} (d : Decoder α) (f : α → Decoder β) : Decoder β := fun i =>
  match d i with
  | .ok (a, rest) => f a rest
  | .error e => .error e

/-- Map over a decoder's result. -/
def dMap {α β : Type} (g : α → β) (d : Decoder α) : Decoder β :=
  dBind d (fun a => dPure (g a))

/-- Read one byte; exhaustion is `truncated`. -/
def readByte : Decoder Nat := fun i =>
  match i with
  | [] => .error .truncated
  | b :: rest => .ok (b, rest)

/-- Read exactly `n` bytes; exhaustion is `truncated`. -/
def readBytes (n : Nat) : Decoder (List Nat) := fun i =>
  if _h : n ≤ i.length then .ok (i.take n, i.drop n) else .error .truncated

/-- Run a decoder `n` times, collecting results in order. -/
def dReplicate {α : Type} (d : Decoder α) : Nat → Decoder (List α)
  | 0 => dPure []
  | n + 1 => dBind d (fun a => dBind (dReplicate d n) (fun as => dPure (a :: as)))

/-- Continuation of compact decoding after the first byte `b` (the four
modes of `impl Decode for Compact<u32>`, including its range checks). -/
def compactCont (b : Nat) : Decoder Nat :=
  if b % 4 = 0 then dPure (b / 4)
  else if b % 4 = 1 then
    dBind readByte fun b1 =>
      if 64 ≤ (b + 256 * b1) / 4 ∧ (b + 256 * b1) / 4 < 16384 then
        dPure ((b + 256 * b1) / 4)
      else dFail .badFormat
  else if b % 4 = 2 then
    dBind (readBytes 3) fun bs =>
      if 16384 ≤ fromLE (b :: bs) / 4 ∧ fromLE (b :: bs) / 4 < 2 ^ 30 then
        dPure (fromLE (b :: bs) / 4)
      else dFail .badFormat
  else
    if b / 4 = 0 then
      dBind (readBytes 4) fun bs =>
        if 2 ^ 30 ≤ fromLE bs then dPure (fromLE bs) else dFail .badFormat
    else dFail .badFormat

/-- SCALE `Compact<u32>` decoding: a length / discriminant-adjacent varint. -/
def decodeCompact : Decoder Nat := dBind readByte compactCont

/-- SCALE `u32` decoding: four bytes, little endian. -/
def decodeU32 : Decoder Nat := dBind (readBytes 4) fun bs => dPure (fromLE bs)

/-- SCALE `String` decoding: compact byte length, that many bytes, then the
UTF-8 validity check done by `String::from_utf8`. -/
def decodeStr : Decoder Str :=
  dBind decodeCompact fun n =>
    dBind (readBytes n) fun bs =>
      if utf8Valid bs then dPure bs else dFail .badFormat

/-- SCALE `Vec<T>` decoding: compact length then that many elements. -/
def dVec {α : Type} (d : Decoder α) : Decoder (List α) :=
  dBind decodeCompact fun n => dReplicate d n

/-- SCALE `Option<T>` decoding: byte 0 is `None`, byte 1 prefixes `Some`,
anything else is an error. -/
def dOption {α : Type} (d : Decoder α) : Decoder (Option α) :=
  dBind readByte fun b =>
    if b = 0 then dPure none
    else if b = 1 then dMap some d
    else dFail .badFormat

/-- The `Decode` impl of `DecodeDifferent` decodes the consumer side and
always wraps it in `Decoded` — decoding never produces an `Encode` value. -/
def ddDecode {α : Type} (d : Decoder α) : Decoder (DecodeDifferent α) :=
  dMap DecodeDifferent.Decoded d

/-- Decoder for `FunctionArgumentMetadata`. -/
def decodeFunctionArgumentMetadata : Decoder FunctionArgumentMetadata :=
  dBind (ddDecode decodeStr) fun name =>
    dBind (ddDecode decodeStr) fun ty =>
      dPure ⟨name, ty⟩

/-- Decoder for `FunctionMetadata`. -/
def decodeFunctionMetadata : Decoder FunctionMetadata :=
  dBind (ddDecode decodeStr) fun name =>
    dBind (ddDecode (dVec decodeFunctionArgumentMetadata)) fun args =>
      dBind (ddDecode (dVec decodeStr)) fun docs =>
        dPure ⟨name, args, docs⟩

/-- Decoder for a v12/v13 `ModuleMetadata` (elided fields skipped). -/
def decodeModuleMetadata : Decoder ModuleMetadata :=
  dBind (ddDecode decodeStr) fun name =>
    dBind (dOption (ddDecode (dVec decodeFunctionMetadata))) fun calls =>
      dBind readByte fun index =>
        dPure ⟨name, calls, index⟩

/-- Decoder for `ExtrinsicMetadata`. -/
def decodeExtrinsicMetadata : Decoder ExtrinsicMetadata :=
  dBind readByte fun version =>
    dBind (dVec (ddDecode decodeStr)) fun exts =>
      dPure ⟨version, exts⟩

/-- Decoder for `RuntimeMetadataV12`. -/
def decodeV12 : Decoder RuntimeMetadataV12 :=
  dBind (ddDecode (dVec decodeModuleMetadata)) fun mods =>
    dBind decodeExtrinsicMetadata fun extrinsic =>
      dPure ⟨mods, extrinsic⟩

/-- Decoder for `RuntimeMetadataV13`. -/
def decodeV13 : Decoder RuntimeMetadataV13 :=
  dBind (ddDecode (dVec decodeModuleMetadata)) fun mods =>
    dBind decodeExtrinsicMetadata fun extrinsic =>
      dPure ⟨mods, extrinsic⟩

/-- Decoder for `PalletCallMetadata` (compact type-registry symbol). -/
def decodePalletCallMetadata : Decoder PalletCallMetadata :=
  dBind decodeCompact fun ty => dPure ⟨ty⟩

/-- Decoder for a v14 `PalletMetadata` (elided fields skipped). -/
def decodePalletMetadata : Decoder PalletMetadata :=
  dBind decodeStr fun name =>
    dBind (dOption decodePalletCallMetadata) fun calls =>
      dBind readByte fun index =>
        dPure ⟨name, calls, index⟩

/-- Decoder for `RuntimeMetadataV14` (elided fields skipped). -/
def decodeV14 : Decoder RuntimeMetadataV14 :=
  dBind (dVec decodePalletMetadata) fun pallets => dPure ⟨pallets⟩

/-- Decoder for `RuntimeMetadata`: one discriminant-tag byte, then the
variant's own decode rule.  Tags 0–11 (deprecated, `RuntimeMetadataDeprecated`
errors unconditionally) and tags ≥ 15 (no such variant) fail without reading
any further byte. -/
def decodeRuntimeMetadata : Decoder RuntimeMetadata :=
  dBind readByte fun tag =>
    if tag < 12 then dFail .unsupportedVersion
    else if tag = 12 then dMap RuntimeMetadata.V12 decodeV12
    else if tag = 13 then dMap RuntimeMetadata.V13 decodeV13
    else if tag = 14 then dMap RuntimeMetadata.V14 decodeV14
    else dFail .unsupportedVersion

/-- Decoder for `RuntimeMetadataPrefixed`: the `u32` magic number (read, not
checked, by the derived impl) followed by the versioned metadata. -/
def decodeRuntimeMetadataPrefixed : Decoder RuntimeMetadataPrefixed :=
  dBind decodeU32 fun magic =>
    dBind decodeRuntimeMetadata fun meta =>
      dPure ⟨magic, meta⟩

/-! ## The lookup engine (display_metadata) -/

/-- Typed outcomes of `display_metadata`'s failure paths, corresponding to its
`anyhow!` messages: `NotFound` to "pallet not found in metadata" (the name
being looked up is recorded here), `ComponentsNotDecoded` to "Metadata should
be Decoded", `UnsupportedVersion` to "Unsupported metadata version". -/
inductive LookupError where
  | NotFound : Str → LookupError
  | ComponentsNotDecoded : LookupError
  | UnsupportedVersion : LookupError
deriving DecidableEq

/-- What `display_metadata` serializes on success: the whole prefixed value
(no name filter), or the single matched module / pallet. -/
inductive LookupResult where
  | Full : RuntimeMetadataPrefixed → LookupResult
  | ModuleV12 : ModuleMetadata → LookupResult
  | ModuleV13 : ModuleMetadata → LookupResult
  | PalletV14 : PalletMetadata → LookupResult
deriving DecidableEq

/-- The decode/lookup decision logic of `Meta::display_metadata` (the
serialization to JSON and the `println!` are presentation, not modelled):
with a name filter, dispatch on the version variant, reject an
`Encode`-state module list, and `find` the first module whose name equals
`DecodeDifferent::Decoded(pallet)` under `DecodeDifferent`'s `PartialEq`
(for V14, plain string equality); with no filter, return everything. -/
def display_metadata (metadata : RuntimeMetadataPrefixed) (pallets : Option Str) :
    Except LookupError LookupResult :=
  match pallets with
  | some pallet =>
    match metadata.meta with
    | .V12 v12 =>
      match v12.modules with
      | .Decoded modules =>
        match modules.find? (fun module => ddEq module.name (DecodeDifferent.Decoded pallet)) with
        | some module => .ok (.ModuleV12 module)
        | none => .error (.NotFound pallet)
      | .Encode _ => .error .ComponentsNotDecoded
    | .V13 v13 =>
      match v13.modules with
      | .Decoded modules =>
        match modules.find? (fun module => ddEq module.name (DecodeDifferent.Decoded pallet)) with
        | some module => .ok (.ModuleV13 module)
        | none => .error (.NotFound pallet)
      | .Encode _ => .error .ComponentsNotDecoded
    | .V14 v14 =>
      match v14.pallets.find? (fun m => m.name == pallet) with
      | some p => .ok (.PalletV14 p)
      | none => .error (.NotFound pallet)
    | _ => .error .UnsupportedVersion
  | none => .ok (.Full metadata)

/-! ## Specification-side lookup (for the refinement claim C3) -/

/-- Modelled from the spec's words for the Lookup Engine: scan the component
list in stored order and return the first component whose resolved name
equals the filter by exact string match. -/
def specFirstByName (n : Str) : List ModuleMetadata → Option ModuleMetadata
  | [] => none
  | m :: ms => if ddPayload m.name = n then some m else specFirstByName n ms

/-- Modelled from the spec's words, v14 shape: first pallet whose name equals
the filter by exact string match. -/
def specFirstByNameV14 (n : Str) : List PalletMetadata → Option PalletMetadata
  | [] => none
  | p :: ps => if p.name = n then some p else specFirstByNameV14 n ps

/-! ## The fetch step's byte extraction (hex crate + trim_start_matches) -/

/-- Error type of `hex::decode` (payloads of `InvalidHexCharacter` elided). -/
inductive FromHexError where
  | InvalidHexCharacter
  | OddLength
deriving DecidableEq

/-- Value of a hexadecimal digit character, accepting both cases, as in the
hex crate's `val`. -/
def hexVal (c : Char) : Option Nat :=
  if '0' ≤ c ∧ c ≤ '9' then some (c.toNat - 48)
  else if 'a' ≤ c ∧ c ≤ 'f' then some (c.toNat - 87)
  else if 'A' ≤ c ∧ c ≤ 'F' then some (c.toNat - 55)
  else none

/-- Pairwise hex decoding, left to right, first invalid digit wins. -/
def hexPairs : List Char → Except FromHexError (List Nat)
  | [] => .ok []
  | [_] => .error .OddLength
  | c1 :: c2 :: rest =>
    match hexVal c1 with
    | none => .error .InvalidHexCharacter
    | some h =>
      match hexVal c2 with
      | none => .error .InvalidHexCharacter
      | some l =>
        match hexPairs rest with
        | .error e => .error e
        | .ok bs => .ok ((16 * h + l) :: bs)

/-- Rust `hex::decode`: odd-length input is rejected up front, then digit
pairs become bytes. -/
def hex_decode (s : List Char) : Except FromHexError (List Nat) :=
  if s.length % 2 = 0 then hexPairs s else .error .OddLength

/-- Rust `str::trim_start_matches("0x")`: repeatedly strip a leading "0x",
leaving any later occurrence in place. -/
def trimStartMatches0x : List Char → List Char
  | '0' :: 'x' :: rest => trimStartMatches0x rest
  | s => s

/-- The byte-extraction step of `Meta::fetch_metadata` (line 51):
`hex::decode(hex_data.trim_start_matches("0x"))`. -/
def fetchMetadataBytes (hex_data : List Char) : Except FromHexError (List Nat) :=
  hex_decode (trimStartMatches0x hex_data)

/-! ## Concrete input material for witnesses and counterexamples -/

/-- UTF-8 bytes of "Balances". -/
def balancesName : Str := [66, 97, 108, 97, 110, 99, 101, 115]

/-- UTF-8 bytes of "balances" (lower-case b). -/
def balancesLowerName : Str := [98, 97, 108, 97, 110, 99, 101, 115]

/-- UTF-8 bytes of "Balance" (one letter shorter). -/
def balanceName : Str := [66, 97, 108, 97, 110, 99, 101]

/-- UTF-8 bytes of "System". -/
def systemName : Str := [83, 121, 115, 116, 101, 109]

/-- UTF-8 bytes of "Staking". -/
def stakingName : Str := [83, 116, 97, 107, 105, 110, 103]

/-- A module named "Balances" with a decoded name. -/
def balancesModule : ModuleMetadata := ⟨.Decoded balancesName, none, 0⟩

/-- A module named "System" with a decoded name. -/
def systemModule : ModuleMetadata := ⟨.Decoded systemName, none, 1⟩

/-- A default extrinsic-metadata value for examples. -/
def extrinsicDefault : ExtrinsicMetadata := ⟨4, []⟩

/-- A small V12 metadata value with modules System then Balances. -/
def exampleV12 : RuntimeMetadataPrefixed :=
  ⟨1635018093, .V12 ⟨.Decoded [systemModule, balancesModule], extrinsicDefault⟩⟩

/-- A syntactically valid encoded buffer: magic "meta" (little endian), tag 14,
one pallet named "System" with no calls and index 0. -/
def exampleV14Buf : List Nat :=
  [109, 101, 116, 97, 14, 4, 24, 83, 121, 115, 116, 101, 109, 0, 0]

/-- The value `exampleV14Buf` decodes to. -/
def exampleV14Val : RuntimeMetadataPrefixed :=
  ⟨1635018093, .V14 ⟨[⟨systemName, none, 0⟩]⟩⟩

/-! ## Decoder lawfulness: consumption discipline -/

/-- A decoder is well-behaved when (1) appending unread input to a successful
run only lengthens the returned remainder, and (2) a failure other than
`truncated` is stable under appending input (the bytes that decided it were
already read).  Together these make `truncated` the only possible outcome on
a strict prefix of a successfully decoded buffer. -/
def DecoderGood {α : Type} (d : Decoder α) : Prop :=
  (∀ xs ys v rest, d xs = .ok (v, rest) → d (xs ++ ys) = .ok (v, rest ++ ys)) ∧
  (∀ xs ys e, e ≠ DecodeError.truncated → d xs = .error e → d (xs ++ ys) = .error e)

theorem good_dPure {α : Type} (a : α) : DecoderGood (dPure a) := by
  constructor
  · intro xs ys v rest h
    simp only [dPure, Except.ok.injEq, Prod.mk.injEq] at h
    obtain ⟨rfl, rfl⟩ := h
    rfl
  · intro xs ys e hne h
    simp [dPure] at h

theorem good_dFail {α : Type} (e0 : DecodeError) : DecoderGood (dFail e0 : Decoder α) := by
  constructor
  · intro xs ys v rest h
    simp [dFail] at h
  · intro xs ys e hne h
    exact h

theorem good_dBind {α β : Type} {d : Decoder α} {f : α → Decoder β}
    (hd : DecoderGood d) (hf : ∀ a, DecoderGood (f a)) : DecoderGood (dBind d f) := by
  constructor
  · intro xs ys v rest h
    cases hdx : d xs with
    | ok p =>
      obtain ⟨a, r⟩ := p
      simp only [dBind, hdx] at h
      simp only [dBind, hd.1 xs ys a r hdx]
      exact (hf a).1 r ys v rest h
    | error e2 =>
      simp only [dBind, hdx] at h
      exact Except.noConfusion h
  · intro xs ys e hne h
    cases hdx : d xs with
    | ok p =>
      obtain ⟨a, r⟩ := p
      simp only [dBind, hdx] at h
      simp only [dBind, hd.1 xs ys a r hdx]
      exact (hf a).2 r ys e hne h
    | error e2 =>
      simp only [dBind, hdx] at h
      obtain rfl : e2 = e := Except.error.inj h
      simp only [dBind, hd.2 xs ys e2 hne hdx]

theorem good_dMap {α β : Type} {g : α → β} {d : Decoder α} (hd : DecoderGood d) :
    DecoderGood (dMap g d) :=
  good_dBind hd (fun a => good_dPure (g a))

theorem good_readByte : DecoderGood readByte := by
  constructor
  · intro xs ys v rest h
    cases xs with
    | nil => simp [readByte] at h
    | cons b r =>
      simp only [readByte, Except.ok.injEq, Prod.mk.injEq] at h
      obtain ⟨rfl, rfl⟩ := h
      simp [readByte]
  · intro xs ys e hne h
    cases xs with
    | nil =>
      simp only [readByte, Except.error.injEq] at h
      exact absurd h.symm hne
    | cons _b r => simp [readByte] at h

theorem good_readBytes (n : Nat) : DecoderGood (readBytes n) := by
  constructor
  · intro xs ys v rest h
    simp only [readBytes] at h ⊢
    split at h
    · rename_i hle
      simp only [Except.ok.injEq, Prod.mk.injEq] at h
      obtain ⟨rfl, rfl⟩ := h
      rw [dif_pos (by simp only [List.length_append]; omega)]
      rw [List.take_append_of_le_length hle, List.drop_append_of_le_length hle]
    · exact absurd h (by simp)
  · intro xs ys e hne h
    simp only [readBytes] at h
    split at h
    · exact absurd h (by simp)
    · obtain rfl : DecodeError.truncated = e := Except.error.inj h
      exact absurd rfl hne

theorem good_dReplicate {α : Type} {d : Decoder α} (hd : DecoderGood d) :
    ∀ n, DecoderGood (dReplicate d n)
  | 0 => good_dPure []
  | n + 1 => by
    simp only [dReplicate]
    exact good_dBind hd
      (fun a => good_dBind (good_dReplicate hd n) (fun as => good_dPure (a :: as)))

theorem good_ite {α : Type} {c : Prop} [Decidable c] {d1 d2 : Decoder α}
    (h1 : DecoderGood d1) (h2 : DecoderGood d2) : DecoderGood (if c then d1 else d2) := by
  by_cases hc : c
  · simpa [hc] using h1
  · simpa [hc] using h2

theorem good_compactCont (b : Nat) : DecoderGood (compactCont b) := by
  unfold compactCont
  refine good_ite (good_dPure _) (good_ite ?_ (good_ite ?_ (good_ite ?_ (good_dFail _))))
  · exact good_dBind good_readByte fun b1 => good_ite (good_dPure _) (good_dFail _)
  · exact good_dBind (good_readBytes 3) fun bs => good_ite (good_dPure _) (good_dFail _)
  · exact good_dBind (good_readBytes 4) fun bs => good_ite (good_dPure _) (good_dFail _)

theorem good_decodeCompact : DecoderGood decodeCompact :=
  good_dBind good_readByte good_compactCont

theorem good_decodeU32 : DecoderGood decodeU32 :=
  good_dBind (good_readBytes 4) fun bs => good_dPure (fromLE bs)

theorem good_decodeStr : DecoderGood decodeStr :=
  good_dBind good_decodeCompact fun n =>
    good_dBind (good_readBytes n) fun bs =>
      good_ite (good_dPure bs) (good_dFail .badFormat)

theorem good_dVec {α : Type} {d : Decoder α} (hd : DecoderGood d) : DecoderGood (dVec d) :=
  good_dBind good_decodeCompact fun n => good_dReplicate hd n

theorem good_dOption {α : Type} {d : Decoder α} (hd : DecoderGood d) :
    DecoderGood (dOption d) :=
  good_dBind good_readByte fun _b =>
    good_ite (good_dPure none) (good_ite (good_dMap hd) (good_dFail .badFormat))

theorem good_ddDecode {α : Type} {d : Decoder α} (hd : DecoderGood d) :
    DecoderGood (ddDecode d) :=
  good_dMap hd

theorem good_decodeFunctionArgumentMetadata : DecoderGood decodeFunctionArgumentMetadata :=
  good_dBind (good_ddDecode good_decodeStr) fun name =>
    good_dBind (good_ddDecode good_decodeStr) fun ty =>
      good_dPure ⟨name, ty⟩

theorem good_decodeFunctionMetadata : DecoderGood decodeFunctionMetadata :=
  good_dBind (good_ddDecode good_decodeStr) fun name =>
    good_dBind (good_ddDecode (good_dVec good_decodeFunctionArgumentMetadata)) fun args =>
      good_dBind (good_ddDecode (good_dVec good_decodeStr)) fun docs =>
        good_dPure ⟨name, args, docs⟩

theorem good_decodeModuleMetadata : DecoderGood decodeModuleMetadata :=
  good_dBind (good_ddDecode good_decodeStr) fun name =>
    good_dBind (good_dOption (good_ddDecode (good_dVec good_decodeFunctionMetadata))) fun calls =>
      good_dBind good_readByte fun index =>
        good_dPure ⟨name, calls, index⟩

theorem good_decodeExtrinsicMetadata : DecoderGood decodeExtrinsicMetadata :=
  good_dBind good_readByte fun version =>
    good_dBind (good_dVec (good_ddDecode good_decodeStr)) fun exts =>
      good_dPure ⟨version, exts⟩

theorem good_decodeV12 : DecoderGood decodeV12 :=
  good_dBind (good_ddDecode (good_dVec good_decodeModuleMetadata)) fun mods =>
    good_dBind good_decodeExtrinsicMetadata fun extrinsic =>
      good_dPure ⟨mods, extrinsic⟩

theorem good_decodeV13 : DecoderGood decodeV13 :=
  good_dBind (good_ddDecode (good_dVec good_decodeModuleMetadata)) fun mods =>
    good_dBind good_decodeExtrinsicMetadata fun extrinsic =>
      good_dPure ⟨mods, extrinsic⟩

theorem good_decodePalletCallMetadata : DecoderGood decodePalletCallMetadata :=
  good_dBind good_decodeCompact fun ty => good_dPure ⟨ty⟩

theorem good_decodePalletMetadata : DecoderGood decodePalletMetadata :=
  good_dBind good_decodeStr fun name =>
    good_dBind (good_dOption good_decodePalletCallMetadata) fun calls =>
      good_dBind good_readByte fun index =>
        good_dPure ⟨name, calls, index⟩

theorem good_decodeV14 : DecoderGood decodeV14 :=
  good_dBind (good_dVec good_decodePalletMetadata) fun pallets => good_dPure ⟨pallets⟩

theorem good_decodeRuntimeMetadata : DecoderGood decodeRuntimeMetadata :=
  good_dBind good_readByte fun _tag =>
    good_ite (good_dFail _)
      (good_ite (good_dMap good_decodeV12)
        (good_ite (good_dMap good_decodeV13)
          (good_ite (good_dMap good_decodeV14) (good_dFail _))))

theorem good_decodeRuntimeMetadataPrefixed : DecoderGood decodeRuntimeMetadataPrefixed :=
  good_dBind good_decodeU32 fun magic =>
    good_dBind good_decodeRuntimeMetadata fun meta =>
      good_dPure ⟨magic, meta⟩

/-- A well-behaved decoder, run on a strict prefix of a buffer it decodes
completely, can only fail with `truncated`. -/
theorem good_truncation {α : Type} {d : Decoder α} (hg : DecoderGood d) :
    ∀ bs v, d bs = .ok (v, []) → ∀ i, i < bs.length → d (bs.take i) = .error .truncated := by
  intro bs v h i hi
  have hsplit : bs.take i ++ bs.drop i = bs := List.take_append_drop i bs
  cases hres : d (bs.take i) with
  | ok p =>
    obtain ⟨w, rest⟩ := p
    have hext := hg.1 (bs.take i) (bs.drop i) w rest hres
    rw [hsplit, h] at hext
    have h3 := Except.ok.inj hext
    have h4 : ([] : List Nat) = rest ++ bs.drop i := congrArg Prod.snd h3
    have h5 : bs.drop i = [] := (List.append_eq_nil.mp h4.symm).2
    have := List.drop_eq_nil_iff.mp h5
    omega
  | error e =>
    cases e with
    | truncated => rfl
    | badFormat =>
      have hext := hg.2 (bs.take i) (bs.drop i) _ (by decide) hres
      rw [hsplit, h] at hext
      exact Except.noConfusion hext
    | unsupportedVersion =>
      have hext := hg.2 (bs.take i) (bs.drop i) _ (by decide) hres
      rw [hsplit, h] at hext
      exact Except.noConfusion hext

/-! ## Injectivity of the string encoding, and name-equality semantics -/

theorem natLEBytes_length_succ {n : Nat} (h : 0 < n) :
    (natLEBytes n).length = (natLEBytes (n / 256)).length + 1 := by
  cases n with
  | zero => omega
  | succ n0 => simp [natLEBytes]

theorem natLEBytes_length_pos (k : Nat) (h : 0 < k) : 1 ≤ (natLEBytes k).length := by
  cases k with
  | zero => omega
  | succ k0 => simp [natLEBytes]

theorem natLEBytes_length_mono : ∀ n m, m ≤ n → (natLEBytes m).length ≤ (natLEBytes n).length := by
  intro n
  induction n using Nat.strong_induction_on with
  | _ n ih =>
    intro m hmn
    cases m with
    | zero => simp [natLEBytes]
    | succ m0 =>
      cases n with
      | zero => omega
      | succ n0 =>
        rw [natLEBytes_length_succ (Nat.succ_pos m0), natLEBytes_length_succ (Nat.succ_pos n0)]
        have hdiv : (m0 + 1) / 256 ≤ (n0 + 1) / 256 := Nat.div_le_div_right hmn
        have hlt : (n0 + 1) / 256 < n0 + 1 := Nat.div_lt_self (Nat.succ_pos n0) (by omega)
        exact Nat.add_le_add_right (ih _ hlt _ hdiv) 1

theorem natLEBytes_length_ge3 (n : Nat) (h : 2 ^ 16 ≤ n) : 3 ≤ (natLEBytes n).length := by
  have h1 : 0 < n := by omega
  have h2 : 0 < n / 256 := by omega
  have h3 : 0 < n / 256 / 256 := by omega
  rw [natLEBytes_length_succ h1, natLEBytes_length_succ h2]
  have := natLEBytes_length_pos _ h3
  omega

theorem compactEncode_length (n : Nat) :
    (compactEncode n).length =
      if n < 64 then 1 else if n < 16384 then 2 else if n < 2 ^ 30 then 4
      else (natLEBytes n).length + 1 := by
  unfold compactEncode
  split_ifs <;> simp

theorem compactEncode_length_mono {m n : Nat} (h : m ≤ n) :
    (compactEncode m).length ≤ (compactEncode n).length := by
  rw [compactEncode_length, compactEncode_length]
  split_ifs
  all_goals first
    | omega
    | (have h3 := natLEBytes_length_ge3 n (by omega); omega)
    | (have h3 := natLEBytes_length_mono n m h; omega)

theorem scaleEncodeStr_inj {s t : Str} (h : scaleEncodeStr s = scaleEncodeStr t) : s = t := by
  have hlen := congrArg List.length h
  simp only [scaleEncodeStr, List.length_append] at hlen
  have hst : s.length = t.length := by
    rcases Nat.lt_trichotomy s.length t.length with hlt | heq | hgt
    · have := compactEncode_length_mono (Nat.le_of_lt hlt); omega
    · exact heq
    · have := compactEncode_length_mono (Nat.le_of_lt hgt); omega
  rw [scaleEncodeStr, scaleEncodeStr, hst] at h
  exact List.append_cancel_left h

/-- The name equality the code evaluates — `DecodeDifferent`'s encoding-based
`PartialEq` against `Decoded(pallet)` — holds exactly when the resolved
payload of the name equals the filter, regardless of wrapper state. -/
theorem ddEq_decoded_iff (x : DecodeDifferent Str) (n : Str) :
    ddEq x (DecodeDifferent.Decoded n) = true ↔ ddPayload x = n := by
  cases x with
  | Encode b =>
    simp only [ddEq, ddEncodeStr, ddPayload, beq_iff_eq]
    exact ⟨fun h => scaleEncodeStr_inj h, fun h => by rw [h]⟩
  | Decoded o =>
    simp only [ddEq, ddEncodeStr, ddPayload, beq_iff_eq]
    exact ⟨fun h => scaleEncodeStr_inj h, fun h => by rw [h]⟩

/-! ## The code's find agrees with the spec's first-match scan -/

theorem find?_eq_specFirstByName (n : Str) (mods : List ModuleMetadata) :
    mods.find? (fun module => ddEq module.name (DecodeDifferent.Decoded n)) =
      specFirstByName n mods := by
  induction mods with
  | nil => rfl
  | cons m ms ih =>
    by_cases hm : ddPayload m.name = n
    · have hb : ddEq m.name (DecodeDifferent.Decoded n) = true :=
        (ddEq_decoded_iff m.name n).mpr hm
      simp only [List.find?, hb, specFirstByName, if_pos hm]
    · have hb : ddEq m.name (DecodeDifferent.Decoded n) = false := by
        rcases Bool.eq_false_or_eq_true (ddEq m.name (DecodeDifferent.Decoded n)) with h0 | h1
        · exact absurd ((ddEq_decoded_iff m.name n).mp h0) hm
        · exact h1
      simp only [List.find?, hb, specFirstByName, if_neg hm, ih]

theorem find?_eq_specFirstByNameV14 (n : Str) (ps : List PalletMetadata) :
    ps.find? (fun m => m.name == n) = specFirstByNameV14 n ps := by
  induction ps with
  | nil => rfl
  | cons p pr ih =>
    by_cases hp : p.name = n
    · have hb : (p.name == n) = true := by simpa using hp
      simp only [List.find?, hb, specFirstByNameV14, if_pos hp]
    · have hb : (p.name == n) = false := by simpa using hp
      simp only [List.find?, hb, specFirstByNameV14, if_neg hp, ih]

theorem specFirstByName_eq_none {n : Str} {mods : List ModuleMetadata}
    (h : ∀ m ∈ mods, ddPayload m.name ≠ n) : specFirstByName n mods = none := by
  induction mods with
  | nil => rfl
  | cons m ms ih =>
    simp only [specFirstByName]
    rw [if_neg (h m (List.mem_cons_self m ms))]
    exact ih (fun m2 hm2 => h m2 (List.mem_cons_of_mem m hm2))

theorem specFirstByNameV14_eq_none {n : Str} {ps : List PalletMetadata}
    (h : ∀ p ∈ ps, p.name ≠ n) : specFirstByNameV14 n ps = none := by
  induction ps with
  | nil => rfl
  | cons p pr ih =>
    simp only [specFirstByNameV14]
    rw [if_neg (h p (List.mem_cons_self p pr))]
    exact ih (fun p2 hp2 => h p2 (List.mem_cons_of_mem p hp2))

/-! ## Per-version behavior of display_metadata on a name filter -/

theorem display_v12_decoded (mag : Nat) (extr : ExtrinsicMetadata)
    (mods : List ModuleMetadata) (n : Str) :
    display_metadata ⟨mag, .V12 ⟨.Decoded mods, extr⟩⟩ (some n) =
      (match specFirstByName n mods with
       | some m => .ok (.ModuleV12 m)
       | none => .error (.NotFound n)) := by
  simp only [display_metadata, find?_eq_specFirstByName]

theorem display_v13_decoded (mag : Nat) (extr : ExtrinsicMetadata)
    (mods : List ModuleMetadata) (n : Str) :
    display_metadata ⟨mag, .V13 ⟨.Decoded mods, extr⟩⟩ (some n) =
      (match specFirstByName n mods with
       | some m => .ok (.ModuleV13 m)
       | none => .error (.NotFound n)) := by
  simp only [display_metadata, find?_eq_specFirstByName]

theorem display_v14 (mag : Nat) (v14 : RuntimeMetadataV14) (n : Str) :
    display_metadata ⟨mag, .V14 v14⟩ (some n) =
      (match specFirstByNameV14 n v14.pallets with
       | some p => .ok (.PalletV14 p)
       | none => .error (.NotFound n)) := by
  simp only [display_metadata, find?_eq_specFirstByNameV14]

/-! ## The claims -/

/-- Claim C1: a buffer whose version discriminant tag (the byte after the
4-byte magic prefix) is outside the known set {12, 13, 14} decodes to an
`unsupportedVersion` error whatever bytes follow the tag — the subsequent
bytes are never interpreted as any schema (the result is the same for every
continuation); and a decoded metadata value whose variant the lookup engine
does not understand makes `display_metadata` fail with `UnsupportedVersion`
for every name filter.  (The latter holds for every inhabitant of the type;
the deprecated variants V0–V11 carry an empty enum, so no such value exists
and the code's `_ =>` arm is unreachable on decoded values.) -/
theorem c1_unsupported_version_containment :
    (∀ (pre : List Nat) (tag : Nat) (rest : List Nat), pre.length = 4 →
      ¬(tag = 12 ∨ tag = 13 ∨ tag = 14) →
      decodeRuntimeMetadataPrefixed (pre ++ tag :: rest) = .error .unsupportedVersion) ∧
    (∀ (m : RuntimeMetadataPrefixed) (name : Option Str), supportedVersion m.meta = false →
      display_metadata m name = .error .UnsupportedVersion) := by
  constructor
  · intro pre tag rest hlen htag
    have e1 : tag ≠ 12 ∧ tag ≠ 13 ∧ tag ≠ 14 := by push_neg at htag; exact htag
    have hread : readBytes 4 (pre ++ tag :: rest) = .ok (pre, tag :: rest) := by
      rw [readBytes, dif_pos (by simp [hlen])]
      rw [List.take_append_of_le_length (by omega), List.drop_append_of_le_length (by omega)]
      rw [List.take_of_length_le (by omega), List.drop_eq_nil_of_le (by omega)]
      rfl
    by_cases hlt : tag < 12
    · simp only [decodeRuntimeMetadataPrefixed, decodeU32, decodeRuntimeMetadata, dBind, dPure,
        readByte, hread, if_pos hlt, dFail]
    · simp only [decodeRuntimeMetadataPrefixed, decodeU32, decodeRuntimeMetadata, dBind, dPure,
        readByte, hread, if_neg hlt, if_neg e1.1, if_neg e1.2.1, if_neg e1.2.2, dFail]
  · intro m name h
    obtain ⟨mag, meta⟩ := m
    cases meta with
    | V0 d => cases d
    | V1 d => cases d
    | V2 d => cases d
    | V3 d => cases d
    | V4 d => cases d
    | V5 d => cases d
    | V6 d => cases d
    | V7 d => cases d
    | V8 d => cases d
    | V9 d => cases d
    | V10 d => cases d
    | V11 d => cases d
    | V12 v => simp [supportedVersion] at h
    | V13 v => simp [supportedVersion] at h
    | V14 v => simp [supportedVersion] at h

/-- Witness for C1: the concrete buffer magic ++ [15, 1, 2, 3] (tag 15 is
unknown) is rejected as an unsupported version. -/
theorem c1_witness :
    ([109, 101, 116, 97] : List Nat).length = 4 ∧
      ¬((15 : Nat) = 12 ∨ (15 : Nat) = 13 ∨ (15 : Nat) = 14) ∧
      decodeRuntimeMetadataPrefixed ([109, 101, 116, 97] ++ 15 :: [1, 2, 3]) =
        .error .unsupportedVersion :=
  ⟨by decide, by decide,
    c1_unsupported_version_containment.1 [109, 101, 116, 97] 15 [1, 2, 3] (by decide) (by decide)⟩

/-- Claim C2: a V12 or V13 value whose top-level module list is in the
`Encode` (StillEncoded) state makes any name-filtered lookup fail with
`ComponentsNotDecoded`, for every payload of the `Encode` wrapper (the raw
content is never interpreted — the result does not depend on it), and this
error is distinct from the not-found outcome. -/
theorem c2_components_not_decoded :
    (∀ (mag : Nat) (extr : ExtrinsicMetadata) (mods : List ModuleMetadata) (n : Str),
      display_metadata ⟨mag, .V12 ⟨.Encode mods, extr⟩⟩ (some n) =
        .error .ComponentsNotDecoded) ∧
    (∀ (mag : Nat) (extr : ExtrinsicMetadata) (mods : List ModuleMetadata) (n : Str),
      display_metadata ⟨mag, .V13 ⟨.Encode mods, extr⟩⟩ (some n) =
        .error .ComponentsNotDecoded) ∧
    (∀ s : Str, LookupError.ComponentsNotDecoded ≠ LookupError.NotFound s) :=
  ⟨fun _ _ _ _ => rfl, fun _ _ _ _ => rfl, fun _ h => LookupError.noConfusion h⟩

/-- Claim C3: on every known version, a name-filtered lookup scans the stored
component list in order and returns the first component whose resolved name
equals the filter exactly (the code's `find` with `DecodeDifferent` equality
coincides with the spec-side first-match scan `specFirstByName`); and
concretely, resolving "Balances" matches neither "balances" nor "Balance"
but does match "Balances". -/
theorem c3_first_exact_match :
    (∀ (mag : Nat) (extr : ExtrinsicMetadata) (mods : List ModuleMetadata) (n : Str),
      display_metadata ⟨mag, .V12 ⟨.Decoded mods, extr⟩⟩ (some n) =
        (match specFirstByName n mods with
         | some m => .ok (.ModuleV12 m)
         | none => .error (.NotFound n))) ∧
    (∀ (mag : Nat) (extr : ExtrinsicMetadata) (mods : List ModuleMetadata) (n : Str),
      display_metadata ⟨mag, .V13 ⟨.Decoded mods, extr⟩⟩ (some n) =
        (match specFirstByName n mods with
         | some m => .ok (.ModuleV13 m)
         | none => .error (.NotFound n))) ∧
    (∀ (mag : Nat) (v14 : RuntimeMetadataV14) (n : Str),
      display_metadata ⟨mag, .V14 v14⟩ (some n) =
        (match specFirstByNameV14 n v14.pallets with
         | some p => .ok (.PalletV14 p)
         | none => .error (.NotFound n))) ∧
    display_metadata exampleV12 (some balancesLowerName) = .error (.NotFound balancesLowerName) ∧
    display_metadata exampleV12 (some balanceName) = .error (.NotFound balanceName) ∧
    display_metadata exampleV12 (some balancesName) = .ok (.ModuleV12 balancesModule) :=
  ⟨display_v12_decoded, display_v13_decoded,
    fun mag v14 n => display_v14 mag v14 n, by decide, by decide, by decide⟩

/-- Claim C4: with no name filter, `display_metadata` always succeeds and
returns the entire prefixed metadata value unchanged, whatever its version. -/
theorem c4_none_returns_full :
    ∀ m : RuntimeMetadataPrefixed, display_metadata m none = .ok (.Full m) :=
  fun _ => rfl

/-- Claim C5: on a known version with a fully decoded component list, a name
matching no component's resolved name fails with exactly `NotFound` carrying
that name. -/
theorem c5_not_found_only :
    (∀ (mag : Nat) (extr : ExtrinsicMetadata) (mods : List ModuleMetadata) (n : Str),
      (∀ m ∈ mods, ddPayload m.name ≠ n) →
      display_metadata ⟨mag, .V12 ⟨.Decoded mods, extr⟩⟩ (some n) = .error (.NotFound n)) ∧
    (∀ (mag : Nat) (extr : ExtrinsicMetadata) (mods : List ModuleMetadata) (n : Str),
      (∀ m ∈ mods, ddPayload m.name ≠ n) →
      display_metadata ⟨mag, .V13 ⟨.Decoded mods, extr⟩⟩ (some n) = .error (.NotFound n)) ∧
    (∀ (mag : Nat) (v14 : RuntimeMetadataV14) (n : Str),
      (∀ p ∈ v14.pallets, p.name ≠ n) →
      display_metadata ⟨mag, .V14 v14⟩ (some n) = .error (.NotFound n)) := by
  refine ⟨?_, ?_, ?_⟩
  · intro mag extr mods n h
    rw [display_v12_decoded, specFirstByName_eq_none h]
  · intro mag extr mods n h
    rw [display_v13_decoded, specFirstByName_eq_none h]
  · intro mag v14 n h
    rw [display_v14, specFirstByNameV14_eq_none h]

/-- Witness for C5: looking up "Staking" in a V12 value whose only module is
"System" yields NotFound("Staking"). -/
theorem c5_witness :
    (∀ m ∈ [systemModule], ddPayload m.name ≠ stakingName) ∧
      display_metadata ⟨0, .V12 ⟨.Decoded [systemModule], extrinsicDefault⟩⟩ (some stakingName) =
        .error (.NotFound stakingName) :=
  ⟨by decide, c5_not_found_only.1 0 extrinsicDefault [systemModule] stakingName (by decide)⟩

/-- Claim C6: decoding is total (the decoder is a function on all byte
lists), and on any strict byte-boundary truncation of a buffer that decodes
completely, it fails with `truncated`. -/
theorem c6_truncation :
    ∀ bs v, decodeRuntimeMetadataPrefixed bs = .ok (v, []) →
      ∀ i, i < bs.length → decodeRuntimeMetadataPrefixed (bs.take i) = .error .truncated :=
  good_truncation good_decodeRuntimeMetadataPrefixed

/-- Witness for C6: a concrete valid V14 buffer decodes completely, and its
7-byte prefix fails with `truncated`. -/
theorem c6_witness :
    decodeRuntimeMetadataPrefixed exampleV14Buf = .ok (exampleV14Val, []) ∧
      7 < exampleV14Buf.length ∧
      decodeRuntimeMetadataPrefixed (exampleV14Buf.take 7) = .error .truncated :=
  ⟨rfl, by decide, c6_truncation exampleV14Buf exampleV14Val rfl 7 (by decide)⟩

/-- Claim C7: lookup and decode are deterministic — equal inputs give equal
results (both are pure functions of their arguments; no hidden state). -/
theorem c7_determinism :
    (∀ (m m2 : RuntimeMetadataPrefixed) (n n2 : Option Str), m = m2 → n = n2 →
      display_metadata m n = display_metadata m2 n2) ∧
    (∀ bs bs2 : List Nat, bs = bs2 →
      decodeRuntimeMetadataPrefixed bs = decodeRuntimeMetadataPrefixed bs2) :=
  ⟨fun _ _ _ _ hm hn => by rw [hm, hn], fun _ _ hb => by rw [hb]⟩

/-- Witness for C7 at concrete arguments. -/
theorem c7_witness :
    display_metadata exampleV12 (some balancesName) =
      display_metadata exampleV12 (some balancesName) :=
  c7_determinism.1 exampleV12 exampleV12 (some balancesName) (some balancesName) rfl rfl

/-- Claim C8 is false: a V12 module whose name field is in the `Encode`
(StillEncoded) state is not skipped during name lookup.  `DecodeDifferent`'s
`PartialEq` compares SCALE encodings, and both wrapper states encode to the
payload's encoding, so the module matches the filter equal to its name
content: the lookup returns it rather than reporting NotFound. -/
theorem c8_counterexample :
    display_metadata ⟨0, .V12 ⟨.Decoded [⟨.Encode balancesName, none, 0⟩], extrinsicDefault⟩⟩
        (some balancesName) = .ok (.ModuleV12 ⟨.Encode balancesName, none, 0⟩) ∧
      ¬(display_metadata ⟨0, .V12 ⟨.Decoded [⟨.Encode balancesName, none, 0⟩], extrinsicDefault⟩⟩
          (some balancesName) = .error (.NotFound balancesName)) :=
  ⟨rfl, by decide⟩

/-- Claim C8, amended: in V12 and V13 metadata, a module whose own name field
is in the Encode state never causes a typed decode-state error during name
lookup, but it is not skipped either — the name comparison goes through the
SCALE encoding of the name, so the wrapper state is irrelevant: such a module
matches a filter equal to its name content exactly as a Decoded name would,
and a lookup over a decoded module list can only succeed or report NotFound. -/
theorem c8_amended_encode_names_match :
    (∀ b n : Str, ddEq (DecodeDifferent.Encode b) (DecodeDifferent.Decoded n) =
      ddEq (DecodeDifferent.Decoded b) (DecodeDifferent.Decoded n)) ∧
    (∀ (mag : Nat) (extr : ExtrinsicMetadata) (c : Option (DecodeDifferentArray FunctionMetadata))
        (i : Byte) (n : Str),
      display_metadata ⟨mag, .V12 ⟨.Decoded [⟨.Encode n, c, i⟩], extr⟩⟩ (some n) =
        .ok (.ModuleV12 ⟨.Encode n, c, i⟩)) ∧
    (∀ (mag : Nat) (extr : ExtrinsicMetadata) (c : Option (DecodeDifferentArray FunctionMetadata))
        (i : Byte) (n : Str),
      display_metadata ⟨mag, .V13 ⟨.Decoded [⟨.Encode n, c, i⟩], extr⟩⟩ (some n) =
        .ok (.ModuleV13 ⟨.Encode n, c, i⟩)) ∧
    (∀ (mag : Nat) (extr : ExtrinsicMetadata) (mods : List ModuleMetadata) (n : Str),
      display_metadata ⟨mag, .V12 ⟨.Decoded mods, extr⟩⟩ (some n) ≠
        .error .ComponentsNotDecoded) ∧
    (∀ (mag : Nat) (extr : ExtrinsicMetadata) (mods : List ModuleMetadata) (n : Str),
      display_metadata ⟨mag, .V13 ⟨.Decoded mods, extr⟩⟩ (some n) ≠
        .error .ComponentsNotDecoded) := by
  refine ⟨fun b n => rfl, ?_, ?_, ?_, ?_⟩
  · intro mag extr c i n
    rw [display_v12_decoded]
    simp [specFirstByName, ddPayload]
  · intro mag extr c i n
    rw [display_v13_decoded]
    simp [specFirstByName, ddPayload]
  · intro mag extr mods n
    rw [display_v12_decoded]
    cases h : specFirstByName n mods <;> simp
  · intro mag extr mods n
    rw [display_v13_decoded]
    cases h : specFirstByName n mods <;> simp

/-- Claim C9: on V14 metadata, a name-filtered lookup can only return a
pallet of the list or fail with `NotFound` — the `ComponentsNotDecoded`
outcome is impossible, since the v14 pallet list and names carry no
`DecodeDifferent` wrapper. -/
theorem c9_v14_no_components_not_decoded :
    ∀ (mag : Nat) (v14 : RuntimeMetadataV14) (n : Str),
      (∃ p, p ∈ v14.pallets ∧
        display_metadata ⟨mag, .V14 v14⟩ (some n) = .ok (.PalletV14 p)) ∨
      display_metadata ⟨mag, .V14 v14⟩ (some n) = .error (.NotFound n) := by
  intro mag v14 n
  rw [display_v14]
  cases h : specFirstByNameV14 n v14.pallets with
  | some p =>
    left
    exact ⟨p, List.mem_of_find?_eq_some (by rw [find?_eq_specFirstByNameV14, h]), rfl⟩
  | none => right; rfl

/-- Claim C10: the fetch step strips every leading repetition of "0x" before
hex-decoding ("0x"+h and "0x0x"+h extract the same bytes for every h), a
string not starting with "0x" is left whole (so a later "0x" is never
removed), and concretely an interior "0x" survives into hex decoding where
its x is an invalid digit. -/
theorem c10_trim_leading_0x :
    (∀ h : List Char,
      fetchMetadataBytes ('0' :: 'x' :: h) = fetchMetadataBytes ('0' :: 'x' :: '0' :: 'x' :: h)) ∧
    (∀ s : List Char, (∀ t, s ≠ '0' :: 'x' :: t) → trimStartMatches0x s = s) ∧
    fetchMetadataBytes ['0', 'x', 'a', 'b', '0', 'x', 'c', 'd'] = .error .InvalidHexCharacter := by
  refine ⟨fun h => rfl, ?_, by decide⟩
  intro s hs
  unfold trimStartMatches0x
  split
  · rename_i rest
    exact absurd rfl (hs rest)
  · rfl

/-- Witness for C10: a string not starting with "0x" is returned unchanged. -/
theorem c10_witness :
    trimStartMatches0x ['a', 'b'] = ['a', 'b'] :=
  c10_trim_leading_0x.2.1 ['a', 'b'] (fun t h => by simp at h)
